import Mathlib

/-!
Shallow embedding of the VAL (Verifiable Agent Log) verification engine.

Source of truth: `val-verify.js` (functions `fetchAllMessages`, `verify`,
`displaySummary`) and `val-soul.js` (functions `getLastSoulHash` and the
`match` computation in `main`).

Modelling conventions:
* A JavaScript value that may be `undefined`/`null` is an `Option`.
* Mirror-node timestamps (`consensus_timestamp`) are strings compared with
  JavaScript string `<`, modelled by Lean's lexicographic `String` order.
* Sequence numbers are natural numbers.
* Each `issues.push(...)` site of `verify` becomes one constructor of
  `Issue`; `Issue.render` reproduces the exact pushed string and
  `Issue.severity` is the `FAIL:`/`WARN:`/`INFO:` prefix of that string.
-/

set_option maxRecDepth 8000

namespace VAL

/-- Decidability of the lexicographic `String` order routed through
`toList`, so that concrete snapshots evaluate inside the kernel. -/
instance decLtStringViaList (s t : String) : Decidable (s < t) :=
  decidable_of_iff (s.toList < t.toList) String.lt_iff_toList_lt.symm

/-- The `data` payload object of an attestation.  Only the fields that
`verify`, `displaySummary` or `val-soul.js` ever read are modelled; every
field is optional because a JSON object may omit any of them.  The source
field named `match` is written `«match»` because `match` is a Lean keyword. -/
structure MsgData where
  name : Option String := none
  tool : Option String := none
  status : Option String := none
  soul_hash : Option String := none
  «match» : Option Bool := none
deriving DecidableEq, Repr

/-- One entry of the `messages` array assembled by `fetchAllMessages`:
`{seq, consensusTs, ...content}` when `JSON.parse` succeeds, and
`{seq, consensusTs, _parseError: true}` when it throws (then `type` and
`data` are absent, i.e. `none`). -/
structure Msg where
  seq : Nat
  consensusTs : String
  type : Option String := none
  data : Option MsgData := none
  _parseError : Bool := false
deriving DecidableEq, Repr

/-- Severity of an issue, read off the string prefix used by `verify`. -/
inductive Severity where
  | fail
  | warn
  | info
deriving DecidableEq, Repr

/-- One issue string pushed by `verify`; one constructor per push site,
carrying the data interpolated into the template string. -/
inductive Issue where
  | emptyLog : Issue
  | firstNotCreate (t : Option String) : Issue
  | seqGap (prevSeq curSeq : Nat) : Issue
  | tsRegression (seq : Nat) : Issue
  | parseWarn (count : Nat) : Issue
  | soulInfo (seq : Nat) : Issue
deriving DecidableEq, Repr

/-- Rendering of an `Option String` the way a JS template string renders a
possibly-`undefined` value. -/
def renderOptStr : Option String → String
  | some s => s
  | none => "undefined"

/-- The exact string pushed into `issues` by each site of `verify`. -/
def Issue.render : Issue → String
  | .emptyLog => "FAIL: No messages found on topic"
  | .firstNotCreate t =>
      "FAIL: First message is \"" ++ renderOptStr t ++ "\", expected \"agent.create\""
  | .seqGap p c =>
      "FAIL: Sequence gap between " ++ toString p ++ " and " ++ toString c
  | .tsRegression s =>
      "FAIL: Timestamp ordering violated at seq " ++ toString s
  | .parseWarn k =>
      "WARN: " ++ toString k ++ " message(s) could not be parsed as JSON"
  | .soulInfo s =>
      "INFO: Soul hash changed at seq " ++ toString s ++ " (identity modified)"

/-- Severity, i.e. the `FAIL:`/`WARN:`/`INFO:` prefix of `Issue.render`. -/
def Issue.severity : Issue → Severity
  | .emptyLog => .fail
  | .firstNotCreate _ => .fail
  | .seqGap _ _ => .fail
  | .tsRegression _ => .fail
  | .parseWarn _ => .warn
  | .soulInfo _ => .info

def Issue.isSeqGap : Issue → Bool
  | .seqGap _ _ => true
  | _ => false

def Issue.isTsRegression : Issue → Bool
  | .tsRegression _ => true
  | _ => false

def Issue.isParseWarn : Issue → Bool
  | .parseWarn _ => true
  | _ => false

def Issue.isSoulInfo : Issue → Bool
  | .soulInfo _ => true
  | _ => false

/-- The consecutive pairs `(messages[i-1], messages[i])`, `i = 1 .. n-1`,
visited by the two `for` loops of `verify`. -/
def adjacentPairs : List Msg → List (Msg × Msg)
  | a :: b :: rest => (a, b) :: adjacentPairs (b :: rest)
  | _ => []

/-- Body of the sequence-continuity loop:
`if (messages[i].seq !== messages[i-1].seq + 1) push(seqGap)`. -/
def gapCheck (pc : Msg × Msg) : Option Issue :=
  if pc.2.seq ≠ pc.1.seq + 1 then some (Issue.seqGap pc.1.seq pc.2.seq) else none

/-- Body of the timestamp-ordering loop:
`if (messages[i].consensusTs < messages[i-1].consensusTs) push(tsRegression)`. -/
def tsCheck (pc : Msg × Msg) : Option Issue :=
  if pc.2.consensusTs < pc.1.consensusTs then some (Issue.tsRegression pc.2.seq) else none

/-- The issues produced by the sequence-continuity loop of `verify`. -/
def seqGapIssues (messages : List Msg) : List Issue :=
  (adjacentPairs messages).filterMap gapCheck

/-- The issues produced by the timestamp-ordering loop of `verify`. -/
def tsIssues (messages : List Msg) : List Issue :=
  (adjacentPairs messages).filterMap tsCheck

/-- The parse-error aggregation of `verify`:
`parseErrors = messages.filter(m => m._parseError)`, and one aggregated
`WARN` mentioning `parseErrors.length` when that is positive. -/
def parseWarnIssues (messages : List Msg) : List Issue :=
  if (messages.filter (fun m => m._parseError)).length > 0
  then [Issue.parseWarn (messages.filter (fun m => m._parseError)).length]
  else []

/-- `m.type === "soul.verify"`. -/
def isSoulVerify (m : Msg) : Bool :=
  m.type == some "soul.verify"

/-- Body of the soul-hash loop: `if (soulVerifies[i].data?.match === false)
push(soulInfo(soulVerifies[i].seq))`. -/
def soulCheck (m : Msg) : Option Issue :=
  if m.data.bind MsgData.«match» == some false then some (Issue.soulInfo m.seq) else none

/-- The issues produced by the soul-hash loop of `verify`: the loop index
starts at `1`, so the first element of `soulVerifies` is skipped. -/
def soulIssues (messages : List Msg) : List Issue :=
  ((messages.filter isSoulVerify).drop 1).filterMap soulCheck

/-- The `verify(messages)` function of `val-verify.js`: empty log check
(which returns early), first-message check, the two adjacent-pair loops,
the aggregated parse warning, and the soul-hash loop, with the issues
accumulated in that order. -/
def verify (messages : List Msg) : List Issue :=
  match messages with
  | [] => [Issue.emptyLog]
  | m0 :: _ =>
      (if m0.type ≠ some "agent.create" then [Issue.firstNotCreate m0.type] else [])
        ++ seqGapIssues messages
        ++ tsIssues messages
        ++ parseWarnIssues messages
        ++ soulIssues messages

/-- The verdict of `displaySummary`: `PASSED` is printed iff
`issues.length === 0`. -/
def passed (issues : List Issue) : Bool :=
  issues.length == 0

/-- The `TOTAL` row of `displaySummary`: `messages.length`. -/
def recordCount (messages : List Msg) : Nat :=
  messages.length

/-- The envelope fields of a successfully parsed message content that the
verifier reads (other wire fields — `val`, `ts`, `agent`, `sig` — are never
read by `verify` or `getLastSoulHash`). -/
structure RawContent where
  type : Option String := none
  data : Option MsgData := none
deriving DecidableEq, Repr

/-- One raw mirror-node message.  `parsed = some c` models
`JSON.parse(base64-decode)` succeeding with content `c`; `parsed = none`
models it throwing. -/
structure RawMsg where
  sequence_number : Nat
  consensus_timestamp : String
  parsed : Option RawContent
deriving DecidableEq, Repr

/-- The per-message body of the assembly loop in `fetchAllMessages`: the
`try` branch spreads the parsed content after `seq`/`consensusTs`, the
`catch` branch keeps the position with `_parseError: true`. -/
def decodeRaw (r : RawMsg) : Msg :=
  match r.parsed with
  | some c =>
      { seq := r.sequence_number, consensusTs := r.consensus_timestamp,
        type := c.type, data := c.data, _parseError := false }
  | none =>
      { seq := r.sequence_number, consensusTs := r.consensus_timestamp,
        type := none, data := none, _parseError := true }

/-- The message assembly of `fetchAllMessages`: every raw message, parseable
or not, is pushed in retrieval order, so over the concatenated pages the
loop is a map. -/
def fetchAllMessages (raws : List RawMsg) : List Msg :=
  raws.map decodeRaw

/-- `getLastSoulHash` of `val-soul.js`, given the mirror response messages
in descending order: scan for the first message that parses to type
`soul.verify` or `agent.create` and return its `data?.soul_hash || null`
(so an absent or empty hash on that record yields `none` and the scan does
not continue past it); unparseable messages are skipped. -/
def getLastSoulHash : List RawMsg → Option String
  | [] => none
  | r :: rest =>
      match r.parsed with
      | some c =>
          if c.type == some "soul.verify" || c.type == some "agent.create" then
            match c.data.bind MsgData.soul_hash with
            | some h => if h = "" then none else some h
            | none => none
          else getLastSoulHash rest
      | none => getLastSoulHash rest

/-- JS truthiness of a `string | null` value: `null` and `""` are falsy. -/
def strTruthy : Option String → Bool
  | none => false
  | some s => s ≠ ""

/-- The `match` computation of `val-soul.js` `main`:
`const match = lastHash ? (lastHash === soulHash) : true`. -/
def soulMatch (lastHash : Option String) (soulHash : String) : Bool :=
  if strTruthy lastHash then lastHash == some soulHash else true

/-! ### Test fixtures: concrete records used by witnesses and counterexamples -/

/-- A well-formed `agent.create` record. -/
def createMsg (s : Nat) (ts : String) : Msg :=
  { seq := s, consensusTs := ts, type := some "agent.create",
    data := some { name := some "A" } }

/-- A well-formed `action` record. -/
def actionMsg (s : Nat) (ts : String) : Msg :=
  { seq := s, consensusTs := ts, type := some "action",
    data := some { tool := some "web_search", status := some "success" } }

/-- An `action` record missing its required `tool` field. -/
def actionNoTool (s : Nat) (ts : String) : Msg :=
  { seq := s, consensusTs := ts, type := some "action",
    data := some { status := some "success" } }

/-- A record of a kind outside the four known kinds. -/
def unknownKindMsg (s : Nat) (ts : String) : Msg :=
  { seq := s, consensusTs := ts, type := some "banana", data := some {} }

/-- A well-formed `heartbeat` record. -/
def heartbeatMsg (s : Nat) (ts : String) : Msg :=
  { seq := s, consensusTs := ts, type := some "heartbeat",
    data := some { status := some "active" } }

/-- A `soul.verify` record carrying a hash and a self-reported `match`. -/
def soulMsg (s : Nat) (ts : String) (h : String) (m : Bool) : Msg :=
  { seq := s, consensusTs := ts, type := some "soul.verify",
    data := some { soul_hash := some h, «match» := some m } }

/-- A message whose payload failed to parse. -/
def perrMsg (s : Nat) (ts : String) : Msg :=
  { seq := s, consensusTs := ts, _parseError := true }

/-! ### Helper lemmas about the shape of each component's issues -/

lemma verify_cons (m0 : Msg) (rest : List Msg) :
    verify (m0 :: rest)
      = (if m0.type ≠ some "agent.create" then [Issue.firstNotCreate m0.type] else [])
          ++ seqGapIssues (m0 :: rest)
          ++ tsIssues (m0 :: rest)
          ++ parseWarnIssues (m0 :: rest)
          ++ soulIssues (m0 :: rest) := rfl

lemma shape_firstPart {m0 : Msg} {i : Issue}
    (h : i ∈ (if m0.type ≠ some "agent.create"
              then [Issue.firstNotCreate m0.type] else [])) :
    i = Issue.firstNotCreate m0.type := by
  split at h
  · simpa using h
  · simp at h

lemma shape_seqGapIssues {ms : List Msg} {i : Issue} (h : i ∈ seqGapIssues ms) :
    ∃ p c, i = Issue.seqGap p c := by
  rcases List.mem_filterMap.mp h with ⟨pc, -, hf⟩
  unfold gapCheck at hf
  split at hf
  · exact ⟨pc.1.seq, pc.2.seq, (Option.some_inj.mp hf).symm⟩
  · cases hf

lemma shape_tsIssues {ms : List Msg} {i : Issue} (h : i ∈ tsIssues ms) :
    ∃ s, i = Issue.tsRegression s := by
  rcases List.mem_filterMap.mp h with ⟨pc, -, hf⟩
  unfold tsCheck at hf
  split at hf
  · exact ⟨pc.2.seq, (Option.some_inj.mp hf).symm⟩
  · cases hf

lemma shape_parseWarnIssues {ms : List Msg} {i : Issue} (h : i ∈ parseWarnIssues ms) :
    ∃ k, i = Issue.parseWarn k := by
  unfold parseWarnIssues at h
  split at h
  · exact ⟨_, (List.mem_singleton.mp h)⟩
  · simp at h

lemma shape_soulIssues {ms : List Msg} {i : Issue} (h : i ∈ soulIssues ms) :
    ∃ s, i = Issue.soulInfo s := by
  rcases List.mem_filterMap.mp h with ⟨m, -, hf⟩
  unfold soulCheck at hf
  split at hf
  · exact ⟨m.seq, (Option.some_inj.mp hf).symm⟩
  · cases hf

/-! ### Counting lemmas -/

lemma countP_eq_zero_of_shape {p : Issue → Bool} {l : List Issue}
    (h : ∀ i ∈ l, p i = false) : l.countP p = 0 :=
  List.countP_eq_zero.mpr fun i hi => by simp [h i hi]

lemma gapCheck_pos {pc : Msg × Msg} (h : pc.2.seq ≠ pc.1.seq + 1) :
    gapCheck pc = some (Issue.seqGap pc.1.seq pc.2.seq) := by
  simp [gapCheck, h]

lemma gapCheck_neg {pc : Msg × Msg} (h : pc.2.seq = pc.1.seq + 1) :
    gapCheck pc = none := by
  simp [gapCheck, h]

lemma tsCheck_pos {pc : Msg × Msg} (h : pc.2.consensusTs < pc.1.consensusTs) :
    tsCheck pc = some (Issue.tsRegression pc.2.seq) := by
  rw [tsCheck, if_pos h]

lemma tsCheck_neg {pc : Msg × Msg} (h : ¬ pc.2.consensusTs < pc.1.consensusTs) :
    tsCheck pc = none := by
  rw [tsCheck, if_neg h]

lemma soulCheck_pos {m : Msg} (h : m.data.bind MsgData.«match» = some false) :
    soulCheck m = some (Issue.soulInfo m.seq) := by
  simp [soulCheck, h]

lemma soulCheck_neg {m : Msg} (h : m.data.bind MsgData.«match» ≠ some false) :
    soulCheck m = none := by
  simp [soulCheck, h]

lemma countP_filterMap_gapCheck (l : List (Msg × Msg)) :
    (l.filterMap gapCheck).countP Issue.isSeqGap
      = l.countP (fun pc => pc.2.seq != pc.1.seq + 1) := by
  induction l with
  | nil => rfl
  | cons pc t ih =>
    by_cases h : pc.2.seq = pc.1.seq + 1
    · rw [List.filterMap_cons_none (gapCheck_neg h), List.countP_cons, ih]
      simp [h]
    · rw [List.filterMap_cons_some (gapCheck_pos h), List.countP_cons,
        List.countP_cons, ih]
      simp [h, Issue.isSeqGap]

lemma countP_filterMap_tsCheck (l : List (Msg × Msg)) :
    (l.filterMap tsCheck).countP Issue.isTsRegression
      = l.countP (fun pc => decide (pc.2.consensusTs < pc.1.consensusTs)) := by
  induction l with
  | nil => rfl
  | cons pc t ih =>
    by_cases h : pc.2.consensusTs < pc.1.consensusTs
    · rw [List.filterMap_cons_some (tsCheck_pos h), List.countP_cons,
        List.countP_cons, ih]
      have h2 : decide (pc.2.consensusTs < pc.1.consensusTs) = true := decide_eq_true h
      simp only [Issue.isTsRegression, h2, if_pos]
    · rw [List.filterMap_cons_none (tsCheck_neg h), List.countP_cons, ih]
      have h2 : decide (pc.2.consensusTs < pc.1.consensusTs) = false := decide_eq_false h
      simp only [h2, Bool.false_eq_true, if_false, Nat.add_zero]

lemma countP_seqGapIssues_self (ms : List Msg) :
    (seqGapIssues ms).countP Issue.isSeqGap
      = (adjacentPairs ms).countP (fun pc => pc.2.seq != pc.1.seq + 1) :=
  countP_filterMap_gapCheck (adjacentPairs ms)

lemma countP_tsIssues_self (ms : List Msg) :
    (tsIssues ms).countP Issue.isTsRegression
      = (adjacentPairs ms).countP
          (fun pc => decide (pc.2.consensusTs < pc.1.consensusTs)) :=
  countP_filterMap_tsCheck (adjacentPairs ms)

lemma countP_firstPart_eq_zero (m0 : Msg) (p : Issue → Bool)
    (hp : ∀ t, p (Issue.firstNotCreate t) = false) :
    ((if m0.type ≠ some "agent.create"
      then [Issue.firstNotCreate m0.type] else []) : List Issue).countP p = 0 :=
  countP_eq_zero_of_shape fun i hi => by rw [shape_firstPart hi, hp]

lemma countP_seqGapIssues_eq_zero (ms : List Msg) (p : Issue → Bool)
    (hp : ∀ a b, p (Issue.seqGap a b) = false) :
    (seqGapIssues ms).countP p = 0 :=
  countP_eq_zero_of_shape fun i hi => by
    obtain ⟨a, b, rfl⟩ := shape_seqGapIssues hi; rw [hp]

lemma countP_tsIssues_eq_zero (ms : List Msg) (p : Issue → Bool)
    (hp : ∀ s, p (Issue.tsRegression s) = false) :
    (tsIssues ms).countP p = 0 :=
  countP_eq_zero_of_shape fun i hi => by
    obtain ⟨s, rfl⟩ := shape_tsIssues hi; rw [hp]

lemma countP_parseWarnIssues_eq_zero (ms : List Msg) (p : Issue → Bool)
    (hp : ∀ k, p (Issue.parseWarn k) = false) :
    (parseWarnIssues ms).countP p = 0 :=
  countP_eq_zero_of_shape fun i hi => by
    obtain ⟨k, rfl⟩ := shape_parseWarnIssues hi; rw [hp]

lemma countP_soulIssues_eq_zero (ms : List Msg) (p : Issue → Bool)
    (hp : ∀ s, p (Issue.soulInfo s) = false) :
    (soulIssues ms).countP p = 0 :=
  countP_eq_zero_of_shape fun i hi => by
    obtain ⟨s, rfl⟩ := shape_soulIssues hi; rw [hp]

lemma verify_countP_seqGap (m0 : Msg) (rest : List Msg) :
    (verify (m0 :: rest)).countP Issue.isSeqGap
      = (adjacentPairs (m0 :: rest)).countP (fun pc => pc.2.seq != pc.1.seq + 1) := by
  rw [verify_cons, List.countP_append, List.countP_append, List.countP_append,
    List.countP_append,
    countP_firstPart_eq_zero m0 Issue.isSeqGap (fun _ => rfl),
    countP_tsIssues_eq_zero _ Issue.isSeqGap (fun _ => rfl),
    countP_parseWarnIssues_eq_zero _ Issue.isSeqGap (fun _ => rfl),
    countP_soulIssues_eq_zero _ Issue.isSeqGap (fun _ => rfl),
    countP_seqGapIssues_self]
  omega

lemma verify_countP_tsReg (m0 : Msg) (rest : List Msg) :
    (verify (m0 :: rest)).countP Issue.isTsRegression
      = (adjacentPairs (m0 :: rest)).countP
          (fun pc => decide (pc.2.consensusTs < pc.1.consensusTs)) := by
  rw [verify_cons, List.countP_append, List.countP_append, List.countP_append,
    List.countP_append,
    countP_firstPart_eq_zero m0 Issue.isTsRegression (fun _ => rfl),
    countP_seqGapIssues_eq_zero _ Issue.isTsRegression (fun _ _ => rfl),
    countP_parseWarnIssues_eq_zero _ Issue.isTsRegression (fun _ => rfl),
    countP_soulIssues_eq_zero _ Issue.isTsRegression (fun _ => rfl),
    countP_tsIssues_self]
  omega

lemma countP_parseWarnIssues_self (ms : List Msg) :
    (parseWarnIssues ms).countP Issue.isParseWarn
      = if 0 < (ms.filter (fun m => m._parseError)).length then 1 else 0 := by
  unfold parseWarnIssues
  split <;> simp_all [Issue.isParseWarn]

lemma verify_countP_parseWarn (m0 : Msg) (rest : List Msg) :
    (verify (m0 :: rest)).countP Issue.isParseWarn
      = if 0 < ((m0 :: rest).filter (fun m => m._parseError)).length then 1 else 0 := by
  rw [verify_cons, List.countP_append, List.countP_append, List.countP_append,
    List.countP_append,
    countP_firstPart_eq_zero m0 Issue.isParseWarn (fun _ => rfl),
    countP_seqGapIssues_eq_zero _ Issue.isParseWarn (fun _ _ => rfl),
    countP_tsIssues_eq_zero _ Issue.isParseWarn (fun _ => rfl),
    countP_soulIssues_eq_zero _ Issue.isParseWarn (fun _ => rfl),
    countP_parseWarnIssues_self]
  omega

lemma mem_verify_of_gap {m0 : Msg} {rest : List Msg} {pc : Msg × Msg}
    (hpc : pc ∈ adjacentPairs (m0 :: rest)) (h : pc.2.seq ≠ pc.1.seq + 1) :
    Issue.seqGap pc.1.seq pc.2.seq ∈ verify (m0 :: rest) := by
  rw [verify_cons]
  have hm : Issue.seqGap pc.1.seq pc.2.seq ∈ seqGapIssues (m0 :: rest) :=
    List.mem_filterMap.mpr ⟨pc, hpc, by simp [gapCheck, h]⟩
  simp [List.mem_append, hm]

lemma mem_verify_of_tsReg {m0 : Msg} {rest : List Msg} {pc : Msg × Msg}
    (hpc : pc ∈ adjacentPairs (m0 :: rest)) (h : pc.2.consensusTs < pc.1.consensusTs) :
    Issue.tsRegression pc.2.seq ∈ verify (m0 :: rest) := by
  rw [verify_cons]
  have hm : Issue.tsRegression pc.2.seq ∈ tsIssues (m0 :: rest) :=
    List.mem_filterMap.mpr ⟨pc, hpc, by simp [tsCheck, h]⟩
  simp [List.mem_append, hm]

lemma mem_verify_of_parseWarn (m0 : Msg) (rest : List Msg)
    (h : 0 < ((m0 :: rest).filter (fun m => m._parseError)).length) :
    Issue.parseWarn ((m0 :: rest).filter (fun m => m._parseError)).length
      ∈ verify (m0 :: rest) := by
  rw [verify_cons]
  have hp : parseWarnIssues (m0 :: rest)
      = [Issue.parseWarn ((m0 :: rest).filter (fun m => m._parseError)).length] := by
    unfold parseWarnIssues
    rw [if_pos h]
  simp [List.mem_append, hp]

lemma length_eq_countP_severities (l : List Issue) :
    l.length = l.countP (fun i => i.severity == Severity.fail)
      + l.countP (fun i => i.severity == Severity.warn)
      + l.countP (fun i => i.severity == Severity.info) := by
  induction l with
  | nil => rfl
  | cons a t ih =>
    cases ha : a.severity <;>
      simp [List.countP_cons, List.length_cons, ha, ih] <;> omega

/-! ### Emptiness lemmas: when each check produces no issue -/

lemma seqGapIssues_eq_nil {ms : List Msg}
    (h : ∀ pc ∈ adjacentPairs ms, pc.2.seq = pc.1.seq + 1) :
    seqGapIssues ms = [] :=
  List.filterMap_eq_nil_iff.mpr fun pc hpc => gapCheck_neg (h pc hpc)

lemma tsIssues_eq_nil {ms : List Msg}
    (h : ∀ pc ∈ adjacentPairs ms, ¬ pc.2.consensusTs < pc.1.consensusTs) :
    tsIssues ms = [] :=
  List.filterMap_eq_nil_iff.mpr fun pc hpc => tsCheck_neg (h pc hpc)

lemma parseWarnIssues_eq_nil {ms : List Msg}
    (h : ∀ m ∈ ms, m._parseError = false) :
    parseWarnIssues ms = [] := by
  unfold parseWarnIssues
  have hf : ms.filter (fun m => m._parseError) = [] :=
    List.filter_eq_nil_iff.mpr fun m hm => by simp [h m hm]
  rw [hf]
  simp

lemma soulIssues_eq_nil {ms : List Msg}
    (h : ∀ m ∈ (ms.filter isSoulVerify).drop 1,
        m.data.bind MsgData.«match» ≠ some false) :
    soulIssues ms = [] :=
  List.filterMap_eq_nil_iff.mpr fun m hm => soulCheck_neg (h m hm)

/-! ### The Info-severity slice of a report -/

lemma filter_info_eq_nil_of_shape {l : List Issue}
    (h : ∀ i ∈ l, i.severity ≠ Severity.info) :
    l.filter (fun i => i.severity == Severity.info) = [] :=
  List.filter_eq_nil_iff.mpr fun i hi => by simp [h i hi]

lemma verify_filter_info (m0 : Msg) (rest : List Msg) :
    (verify (m0 :: rest)).filter (fun i => i.severity == Severity.info)
      = soulIssues (m0 :: rest) := by
  rw [verify_cons, List.filter_append, List.filter_append, List.filter_append,
    List.filter_append,
    filter_info_eq_nil_of_shape
      (fun i hi => by rw [shape_firstPart hi]; simp [Issue.severity]),
    filter_info_eq_nil_of_shape
      (fun i hi => by obtain ⟨a, b, rfl⟩ := shape_seqGapIssues hi; simp [Issue.severity]),
    filter_info_eq_nil_of_shape
      (fun i hi => by obtain ⟨s, rfl⟩ := shape_tsIssues hi; simp [Issue.severity]),
    filter_info_eq_nil_of_shape
      (fun i hi => by obtain ⟨k, rfl⟩ := shape_parseWarnIssues hi; simp [Issue.severity]),
    List.filter_eq_self.mpr
      (fun i hi => by obtain ⟨s, rfl⟩ := shape_soulIssues hi; simp [Issue.severity])]
  simp

lemma soulIssues_append_first (pre : List Msg) (m0 : Msg) (post : List Msg)
    (hpre : ∀ m ∈ pre, isSoulVerify m = false)
    (h0 : isSoulVerify m0 = true) :
    soulIssues (pre ++ m0 :: post) = (post.filter isSoulVerify).filterMap soulCheck := by
  unfold soulIssues
  rw [List.filter_append,
    List.filter_eq_nil_iff.mpr (fun m hm => by simp [hpre m hm]),
    List.nil_append, List.filter_cons_of_pos h0]
  rfl

/-! ### `getLastSoulHash` never returns the empty string -/

lemma getLastSoulHash_ne_empty (l : List RawMsg) : getLastSoulHash l ≠ some "" := by
  induction l with
  | nil => simp [getLastSoulHash]
  | cons r rest ih =>
    cases hp : r.parsed with
    | none => simp [getLastSoulHash, hp, ih]
    | some c =>
      by_cases ht : (c.type == some "soul.verify" || c.type == some "agent.create") = true
      · cases hd : c.data.bind MsgData.soul_hash with
        | none => simp [getLastSoulHash, hp, ht, hd]
        | some h =>
          by_cases he : h = "" <;> simp [getLastSoulHash, hp, ht, hd, he]
      · have ht' : ¬(c.type = some "soul.verify" ∨ c.type = some "agent.create") := by
          simpa using ht
        simp [getLastSoulHash, hp, ht', ih]

/-! ### Claim theorems -/

/-- A snapshot whose only defect is one unparseable payload: its issue list
is a single Warn and nothing of Fail severity. -/
def exC1 : List Msg := [createMsg 1 "1", perrMsg 2 "2"]

/-- C1 counterexample: on `exC1` the report contains zero Fail-severity
issues, yet the verdict (`displaySummary` prints `PASSED` iff
`issues.length === 0`) is not Pass — the aggregated parse Warn alone blocks
it, contradicting "Warn/Info never affect verdict". -/
theorem c1_counterexample_warn_blocks_pass :
    (verify exC1).countP (fun i => i.severity == Severity.fail) = 0
      ∧ verify exC1 = [Issue.parseWarn 1]
      ∧ passed (verify exC1) = false := by
  refine ⟨by decide, by decide, by decide⟩

/-- C1 amended: the overall verdict is Pass iff the issue list is entirely
empty — zero Fail-severity AND zero Warn-severity AND zero Info-severity
issues; a run whose issues are only Warn- or Info-severity does not yield
verdict Pass. -/
theorem c1_amended_pass_iff_no_issues (messages : List Msg) :
    passed (verify messages) = true
      ↔ (verify messages).countP (fun i => i.severity == Severity.fail) = 0
        ∧ (verify messages).countP (fun i => i.severity == Severity.warn) = 0
        ∧ (verify messages).countP (fun i => i.severity == Severity.info) = 0 := by
  have hp := length_eq_countP_severities (verify messages)
  unfold passed
  constructor
  · intro h
    have hl : (verify messages).length = 0 := by simpa using h
    omega
  · rintro ⟨h1, h2, h3⟩
    have hl : (verify messages).length = 0 := by omega
    simpa using hl

/-- C1 amended witness: a clean snapshot passes, via the amended theorem at
a concrete input. -/
theorem c1_amended_witness :
    passed (verify [createMsg 1 "1", actionMsg 2 "2"]) = true :=
  (c1_amended_pass_iff_no_issues [createMsg 1 "1", actionMsg 2 "2"]).mpr
    ⟨by decide, by decide, by decide⟩

/-- A structurally clean snapshot containing an `action` record with no
`tool` field (seq 2) and a record of unknown kind `banana` (seq 3). -/
def exC2 : List Msg := [createMsg 1 "1", actionNoTool 2 "2", unknownKindMsg 3 "3"]

/-- C2 counterexample: the snapshot `exC2` holds an `action` record missing
its required `tool` field and a record of unknown kind, yet `verify`
returns no issue at all — no Fail for the missing field, no Warn for the
unknown kind. -/
theorem c2_counterexample_no_field_checks :
    verify exC2 = []
      ∧ (exC2.get? 1).bind Msg.type = some "action"
      ∧ ((exC2.get? 1).bind Msg.data).bind MsgData.tool = none
      ∧ (exC2.get? 2).bind Msg.type = some "banana" := by
  refine ⟨by decide, by decide, by decide, by decide⟩

/-- C2 amended: `verify` runs no variant-specific required-field check and
emits no issue for unknown kinds.  Any snapshot that starts with
`agent.create`, has consecutive sequences, non-regressing timestamps, no
parse errors, and no post-first `soul.verify` reporting `match=false`
verifies with zero issues, regardless of the records' kinds and payload
fields. -/
theorem c2_amended_no_required_field_check (m0 : Msg) (rest : List Msg)
    (h0 : m0.type = some "agent.create")
    (hseq : ∀ pc ∈ adjacentPairs (m0 :: rest), pc.2.seq = pc.1.seq + 1)
    (hts : ∀ pc ∈ adjacentPairs (m0 :: rest), ¬ pc.2.consensusTs < pc.1.consensusTs)
    (hpe : ∀ m ∈ m0 :: rest, m._parseError = false)
    (hsoul : ∀ m ∈ ((m0 :: rest).filter isSoulVerify).drop 1,
        m.data.bind MsgData.«match» ≠ some false) :
    verify (m0 :: rest) = [] := by
  rw [verify_cons, seqGapIssues_eq_nil hseq, tsIssues_eq_nil hts,
    parseWarnIssues_eq_nil hpe, soulIssues_eq_nil hsoul, if_neg (by simp [h0])]
  rfl

/-- C2 amended witness: the amended theorem applied to a concrete snapshot
containing a missing-field record and an unknown-kind record. -/
theorem c2_amended_witness :
    verify [createMsg 1 "1", actionNoTool 2 "1", unknownKindMsg 3 "1"] = [] :=
  c2_amended_no_required_field_check (createMsg 1 "1")
    [actionNoTool 2 "1", unknownKindMsg 3 "1"]
    (by decide) (by decide) (by decide) (by decide) (by decide)

/-- P5's honest scenario: `soul.verify` hashes `[H1, H1, H2, H2]` with each
record's `match` field consistent with the hash transition (`false` exactly
at the transition to `H2`). -/
def exSoulHonest : List Msg :=
  [createMsg 1 "1", soulMsg 2 "2" "H1" true, soulMsg 3 "3" "H1" true,
   soulMsg 4 "4" "H2" false, soulMsg 5 "5" "H2" true]

/-- P5's lying scenario: same snapshot, but the third `soul.verify` record
(seq 4) declares `match=true` although its hash changed from `H1` to `H2`. -/
def exSoulLying : List Msg :=
  [createMsg 1 "1", soulMsg 2 "2" "H1" true, soulMsg 3 "3" "H1" true,
   soulMsg 4 "4" "H2" true, soulMsg 5 "5" "H2" true]

/-- C3 counterexample: with the third `soul.verify` record falsely declaring
`match=true` while its hash changed, `verify` emits zero Warn-severity
issues — in fact no issue at all — instead of the claimed additional Warn
for the self-report inconsistency. -/
theorem c3_counterexample_no_warn_on_lie :
    (verify exSoulLying).countP (fun i => i.severity == Severity.warn) = 0
      ∧ verify exSoulLying = [] := by
  refine ⟨by decide, by decide⟩

/-- C3 amended: the honest `[H1, H1, H2, H2]` sequence yields exactly one
Info issue (at seq 4, the transition to `H2`) and zero Fail or Warn issues;
but when the third record falsely declares `match=true` while its hash
changed, verification yields no issue at all — the verifier trusts the
self-reported `match` field and performs no hash comparison of its own, so
no Warn is emitted (and the Info disappears too). -/
theorem c3_amended_drift_info_only :
    verify exSoulHonest = [Issue.soulInfo 4]
      ∧ (Issue.soulInfo 4).severity = Severity.info
      ∧ verify exSoulLying = [] := by
  refine ⟨by decide, rfl, by decide⟩

/-- C7: the empty snapshot short-circuits to exactly the single Fail issue
"empty log", the verdict is not Pass, and the record count is 0. -/
theorem c7_empty_snapshot :
    verify [] = [Issue.emptyLog]
      ∧ Issue.emptyLog.severity = Severity.fail
      ∧ Issue.emptyLog.render = "FAIL: No messages found on topic"
      ∧ passed (verify []) = false
      ∧ recordCount [] = 0 :=
  ⟨rfl, rfl, rfl, rfl, rfl⟩

/-- C4: the number of gap issues in a report equals the number of adjacent
pairs violating `cur.seq = prev.seq + 1` (so consecutive sequences yield
zero gap issues, and each violating pair yields exactly one); every
violating pair contributes the issue carrying both its sequence numbers,
and every gap issue is Fail-severity. -/
theorem c4_sequence_gap_exactness (messages : List Msg) :
    (verify messages).countP Issue.isSeqGap
        = (adjacentPairs messages).countP (fun pc => pc.2.seq != pc.1.seq + 1)
      ∧ ((∀ pc ∈ adjacentPairs messages, pc.2.seq = pc.1.seq + 1) →
          (verify messages).countP Issue.isSeqGap = 0)
      ∧ (∀ pc ∈ adjacentPairs messages, pc.2.seq ≠ pc.1.seq + 1 →
          Issue.seqGap pc.1.seq pc.2.seq ∈ verify messages)
      ∧ (∀ a b, (Issue.seqGap a b).severity = Severity.fail) := by
  cases messages with
  | nil =>
    refine ⟨rfl, fun _ => rfl, ?_, fun a b => rfl⟩
    intro pc hpc
    simp [adjacentPairs] at hpc
  | cons m0 rest =>
    refine ⟨verify_countP_seqGap m0 rest, ?_, ?_, fun a b => rfl⟩
    · intro h
      rw [verify_countP_seqGap]
      exact List.countP_eq_zero.mpr fun pc hpc => by simp [h pc hpc]
    · exact fun pc hpc h => mem_verify_of_gap hpc h

/-- C4 witness: Scenario B, `[Creation(seq 1), Action(seq 3)]` — the gap
issue citing 1 and 3 is present and is the only gap issue. -/
theorem c4_sequence_gap_exactness_witness :
    Issue.seqGap 1 3 ∈ verify [createMsg 1 "1", actionMsg 3 "2"]
      ∧ (verify [createMsg 1 "1", actionMsg 3 "2"]).countP Issue.isSeqGap = 1 :=
  ⟨(c4_sequence_gap_exactness [createMsg 1 "1", actionMsg 3 "2"]).2.2.1
      (createMsg 1 "1", actionMsg 3 "2") (by decide) (by decide),
   by
     rw [(c4_sequence_gap_exactness [createMsg 1 "1", actionMsg 3 "2"]).1]
     decide⟩

/-- C5: the number of timestamp-regression issues in a report equals the
number of adjacent pairs with `cur.consensusTime < prev.consensusTime` (so
equal timestamps never contribute an issue); every regressing pair
contributes the issue carrying the current record's sequence, and every
regression issue is Fail-severity. -/
theorem c5_ts_regression_exactness (messages : List Msg) :
    (verify messages).countP Issue.isTsRegression
        = (adjacentPairs messages).countP
            (fun pc => decide (pc.2.consensusTs < pc.1.consensusTs))
      ∧ (∀ pc ∈ adjacentPairs messages, pc.2.consensusTs < pc.1.consensusTs →
          Issue.tsRegression pc.2.seq ∈ verify messages)
      ∧ ((∀ pc ∈ adjacentPairs messages, pc.2.consensusTs = pc.1.consensusTs) →
          (verify messages).countP Issue.isTsRegression = 0)
      ∧ (∀ s, (Issue.tsRegression s).severity = Severity.fail) := by
  cases messages with
  | nil =>
    refine ⟨rfl, ?_, fun _ => rfl, fun s => rfl⟩
    intro pc hpc
    simp [adjacentPairs] at hpc
  | cons m0 rest =>
    refine ⟨verify_countP_tsReg m0 rest, ?_, ?_, fun s => rfl⟩
    · exact fun pc hpc h => mem_verify_of_tsReg hpc h
    · intro h
      rw [verify_countP_tsReg]
      exact List.countP_eq_zero.mpr fun pc hpc => by
        simp [h pc hpc, lt_irrefl]

/-- C5 witness: Scenario C, `[Creation(ts 5), Heartbeat(ts 4)]` — the
regression issue at seq 2 is present and is the only regression issue. -/
theorem c5_ts_regression_exactness_witness :
    Issue.tsRegression 2 ∈ verify [createMsg 1 "5", heartbeatMsg 2 "4"]
      ∧ (verify [createMsg 1 "5", heartbeatMsg 2 "4"]).countP Issue.isTsRegression = 1 :=
  ⟨(c5_ts_regression_exactness [createMsg 1 "5", heartbeatMsg 2 "4"]).2.1
      (createMsg 1 "5", heartbeatMsg 2 "4") (by decide) (by decide),
   by
     rw [(c5_ts_regression_exactness [createMsg 1 "5", heartbeatMsg 2 "4"]).1]
     decide⟩

/-- C6: a non-empty snapshot whose first record is not `agent.create` always
contains the Fail issue for the first-record check, the verdict is not
Pass, and the report is exactly that issue followed by the full output of
the sequence, timestamp, parse and soul checks over all records — the
first-record failure suppresses nothing. -/
theorem c6_first_record_fail_accumulates (m0 : Msg) (rest : List Msg)
    (h : m0.type ≠ some "agent.create") :
    Issue.firstNotCreate m0.type ∈ verify (m0 :: rest)
      ∧ (Issue.firstNotCreate m0.type).severity = Severity.fail
      ∧ passed (verify (m0 :: rest)) = false
      ∧ verify (m0 :: rest)
          = Issue.firstNotCreate m0.type
              :: (seqGapIssues (m0 :: rest) ++ tsIssues (m0 :: rest)
                  ++ parseWarnIssues (m0 :: rest) ++ soulIssues (m0 :: rest)) := by
  have he : verify (m0 :: rest)
      = Issue.firstNotCreate m0.type
          :: (seqGapIssues (m0 :: rest) ++ tsIssues (m0 :: rest)
              ++ parseWarnIssues (m0 :: rest) ++ soulIssues (m0 :: rest)) := by
    rw [verify_cons, if_pos h]
    simp [List.append_assoc]
  refine ⟨?_, rfl, ?_, he⟩
  · rw [he]; exact List.mem_cons_self _ _
  · rw [he]; rfl

/-- C6 witness: a snapshot starting with an `Action` record, which also has
a sequence gap — both issues appear. -/
theorem c6_first_record_fail_accumulates_witness :
    Issue.firstNotCreate (some "action") ∈ verify [actionMsg 1 "1", actionMsg 3 "2"]
      ∧ verify [actionMsg 1 "1", actionMsg 3 "2"]
          = [Issue.firstNotCreate (some "action"), Issue.seqGap 1 3] :=
  ⟨(c6_first_record_fail_accumulates (actionMsg 1 "1") [actionMsg 3 "2"]
      (by decide)).1,
   by
     rw [(c6_first_record_fail_accumulates (actionMsg 1 "1") [actionMsg 3 "2"]
       (by decide)).2.2.2]
     decide⟩

/-- C8: with `k > 0` unparseable payloads among the raw messages,
verification still completes; every raw message, parseable or not, is kept
at its original position (`length` and positional `getElem?` equalities);
the number of `_parseError` records equals the number of unparseable raw
payloads; exactly one aggregated Warn is emitted, counting all `k`
failures; and the gap and timestamp checks still range over every adjacent
pair of the full assembled list, unparseable records included. -/
theorem c8_decode_tolerance (raws : List RawMsg)
    (hk : 0 < raws.countP (fun r => r.parsed == none)) :
    (fetchAllMessages raws).length = raws.length
      ∧ (∀ n : Nat, (fetchAllMessages raws)[n]? = (raws[n]?).map decodeRaw)
      ∧ (fetchAllMessages raws).countP (fun m => m._parseError)
          = raws.countP (fun r => r.parsed == none)
      ∧ (verify (fetchAllMessages raws)).countP Issue.isParseWarn = 1
      ∧ Issue.parseWarn (raws.countP (fun r => r.parsed == none))
          ∈ verify (fetchAllMessages raws)
      ∧ (verify (fetchAllMessages raws)).countP Issue.isSeqGap
          = (adjacentPairs (fetchAllMessages raws)).countP
              (fun pc => pc.2.seq != pc.1.seq + 1)
      ∧ (verify (fetchAllMessages raws)).countP Issue.isTsRegression
          = (adjacentPairs (fetchAllMessages raws)).countP
              (fun pc => decide (pc.2.consensusTs < pc.1.consensusTs)) := by
  have hcount : (fetchAllMessages raws).countP (fun m => m._parseError)
      = raws.countP (fun r => r.parsed == none) := by
    unfold fetchAllMessages
    rw [List.countP_map]
    exact List.countP_congr fun r _ => by
      cases hp : r.parsed <;> simp [Function.comp, decodeRaw, hp]
  obtain ⟨r0, rs, rfl⟩ : ∃ r0 rs, raws = r0 :: rs := by
    cases raws with
    | nil => simp at hk
    | cons a l => exact ⟨a, l, rfl⟩
  have hfl : 0 < ((decodeRaw r0 :: rs.map decodeRaw).filter
      (fun m => m._parseError)).length := by
    rw [← List.countP_eq_length_filter]
    exact hcount.symm ▸ hk
  refine ⟨by simp [fetchAllMessages],
    fun n => by simp only [fetchAllMessages, List.getElem?_map],
    hcount, ?_, ?_,
    verify_countP_seqGap (decodeRaw r0) (rs.map decodeRaw),
    verify_countP_tsReg (decodeRaw r0) (rs.map decodeRaw)⟩
  · show (verify (decodeRaw r0 :: rs.map decodeRaw)).countP Issue.isParseWarn = 1
    rw [verify_countP_parseWarn (decodeRaw r0) (rs.map decodeRaw), if_pos hfl]
  · have hm := mem_verify_of_parseWarn (decodeRaw r0) (rs.map decodeRaw) hfl
    have harg : ((decodeRaw r0 :: rs.map decodeRaw).filter
        (fun m => m._parseError)).length
          = (r0 :: rs).countP (fun r => r.parsed == none) := by
      rw [← List.countP_eq_length_filter]
      exact hcount
    show Issue.parseWarn ((r0 :: rs).countP fun r => r.parsed == none)
      ∈ verify (decodeRaw r0 :: rs.map decodeRaw)
    exact harg ▸ hm

/-- A three-message raw stream whose middle payload is unparseable. -/
def exC8raws : List RawMsg :=
  [⟨1, "1", some ⟨some "agent.create", some { name := some "A" }⟩⟩,
   ⟨2, "2", none⟩,
   ⟨3, "3", some ⟨some "action",
      some { tool := some "web_search", status := some "success" }⟩⟩]

/-- C8 witness: the decode-tolerance theorem at a concrete raw stream with
one unparseable payload interleaved between two valid ones. -/
theorem c8_decode_tolerance_witness :
    (verify (fetchAllMessages exC8raws)).countP Issue.isParseWarn = 1 :=
  (c8_decode_tolerance exC8raws (by decide)).2.2.2.1

/-- C9: the Info-severity slice of a report is exactly the output of the
soul-hash loop over the `soul.verify` records after the first one: writing
the snapshot as `pre ++ m0 :: post` with `m0` its first `soul.verify`
record, the Info issues are computed from `post`'s `soul.verify` records
alone — one Info per such record with `data.match = false` — so the first
`soul.verify` record contributes nothing, whatever its `match` field or
hash. -/
theorem c9_first_soul_record_never_info (pre : List Msg) (m0 : Msg) (post : List Msg)
    (hpre : ∀ m ∈ pre, isSoulVerify m = false)
    (h0 : isSoulVerify m0 = true) :
    (verify (pre ++ m0 :: post)).filter (fun i => i.severity == Severity.info)
      = (post.filter isSoulVerify).filterMap soulCheck := by
  cases pre with
  | nil =>
    rw [List.nil_append, verify_filter_info]
    exact soulIssues_append_first [] m0 post (by simp) h0
  | cons a t =>
    have hc : (a :: t) ++ m0 :: post = a :: (t ++ m0 :: post) := rfl
    rw [hc, verify_filter_info]
    exact soulIssues_append_first (a :: t) m0 post hpre h0

/-- C9 witness: the first `soul.verify` record even reports `match=false`
with a hash, yet only the later `soul.verify` with `match=false` yields an
Info. -/
theorem c9_first_soul_record_never_info_witness :
    (verify [createMsg 1 "1", soulMsg 2 "2" "H0" false, soulMsg 3 "3" "H1" false]).filter
        (fun i => i.severity == Severity.info)
      = [Issue.soulInfo 3] :=
  (c9_first_soul_record_never_info [createMsg 1 "1"] (soulMsg 2 "2" "H0" false)
      [soulMsg 3 "3" "H1" false] (by decide) (by decide)).trans (by decide)

/-- C10: the `match` field submitted by the soul producer is `true` iff the
lookup of the last attested soul hash found nothing, or what it found
equals the freshly computed composite hash. -/
theorem c10_soul_match_iff (descMessages : List RawMsg) (soulHash : String) :
    soulMatch (getLastSoulHash descMessages) soulHash = true
      ↔ (getLastSoulHash descMessages = none
          ∨ getLastSoulHash descMessages = some soulHash) := by
  cases hg : getLastSoulHash descMessages with
  | none => simp [soulMatch, strTruthy]
  | some h =>
    have hne : h ≠ "" := fun he => getLastSoulHash_ne_empty descMessages (he ▸ hg)
    simp [soulMatch, strTruthy, hne]

/-- The latest mirror messages (descending): one `soul.verify` carrying a
soul hash. -/
def exDescRaws : List RawMsg :=
  [⟨7, "7", some ⟨some "soul.verify", some { soul_hash := some "sha256:abc" }⟩⟩]

/-- C10 witness: the iff applied at a concrete descending message list whose
last attested hash equals the current composite hash. -/
theorem c10_soul_match_iff_witness :
    soulMatch (getLastSoulHash exDescRaws) "sha256:abc" = true :=
  (c10_soul_match_iff exDescRaws "sha256:abc").mpr (Or.inr (by decide))

end VAL
